import Mathlib

/-!
Verification development for the Tribbler repository (CMU-440-F16/p2): a
three-tier micro-blogging service made of a sharded key/value StorageServer,
a caching Libstore, and a stateless TribServer front-end.

The repository sources contain the key-formatting helpers
(`util/keyFormatter.go`), the `TribServer` RPC interface, and the checkpoint
test harnesses.  The key formatter is embedded here directly from its Go
source.  The StorageServer, Libstore and TribServer implementations are not
present in the sources, so their behaviour is modelled from the specification
(each such definition carries a doc comment starting with
`Modelled from the spec:`), and settled against the documented contracts and
the behaviour the test harnesses demand.
-/

namespace Tribbler

/-! ## Key formatting (`util/keyFormatter.go`) -/

/-- Embeds `FormatUserKey`: `fmt.Sprintf("%s:usrid", userID)`. -/
def FormatUserKey (userID : String) : String :=
  userID ++ ":usrid"

/-- Embeds `FormatSubListKey`: `fmt.Sprintf("%s:sublist", userID)`. -/
def FormatSubListKey (userID : String) : String :=
  userID ++ ":sublist"

/-- Embeds `FormatTribListKey`: `fmt.Sprintf("%s:triblist", userID)`. -/
def FormatTribListKey (userID : String) : String :=
  userID ++ ":triblist"

/-- Hexadecimal rendering of a natural number, standing for Go's `%x`. -/
def hexString (n : Nat) : String :=
  String.mk (Nat.toDigits 16 n)

/-- Stands for the string Go's `fmt` produces for `%x` applied to the freshly
allocated `rand.New(rand.NewSource(time.Now().Unix()))`.  `fmt` dereferences a
pointer to a struct only at top level, so of the `rand.Rand` value it renders
the fields `src`, `readVal`, `readPos`: the `src Source` interface holds a
`*rngSource` pointer at depth greater than one, which `fmt` prints as the
allocation's memory address in hex, and `readVal`/`readPos` are zero at
creation.  The rendered fragment is therefore a function of the per-call
allocation address `srcAddr` — and of nothing else, in particular not of the
seed, whose generator state sits behind the never-dereferenced pointer.  The
precise characters are runtime defined and abstracted here. -/
def randFragment (srcAddr : Nat) : String :=
  hexString srcAddr

/-- Embeds `FormatPostKey`:
`fmt.Sprintf("%s:post_%x_%x", userID, postTime, rand.New(rand.NewSource(time.Now().Unix())))`.
Each call allocates a fresh `rngSource`; `srcAddr` is that allocation's
address, the one call-dependent input of the rendered fragment. -/
def FormatPostKey (userID : String) (postTime : Nat) (srcAddr : Nat) : String :=
  userID ++ ":post_" ++ hexString postTime ++ "_" ++ randFragment srcAddr

/-- Shard-routing prefix of a key: everything before the first `:`
(the whole key when no `:` occurs).  Consistent hashing is applied to this
string, so two keys with equal routing prefixes land on the same
StorageNode. -/
def prefixBeforeColon (s : String) : String :=
  String.mk (s.data.takeWhile (fun c => c != ':'))

/-- Taking the longest take-while segment ignores everything after the first
character that fails the predicate, so the tail beyond that point is
irrelevant. -/
theorem takeWhile_append_stop {p : Char → Bool} (h : p ':' = false) :
    ∀ (l r₁ r₂ : List Char),
      (l ++ ':' :: r₁).takeWhile p = (l ++ ':' :: r₂).takeWhile p := by
  intro l r₁ r₂
  induction l with
  | nil => simp [List.takeWhile, h]
  | cons a t ih =>
      simp only [List.cons_append, List.takeWhile]
      cases p a <;> simp [ih]

theorem data_append (s t : String) : (s ++ t).data = s.data ++ t.data := rfl

/-- Helper giving the routing prefix equality for two keys built from the same
user id followed by a colon-led suffix. -/
theorem prefixBeforeColon_user_eq (u r₁ r₂ : String)
    (h₁ : r₁.data = ':' :: r₁.data.tail) (h₂ : r₂.data = ':' :: r₂.data.tail) :
    prefixBeforeColon (u ++ r₁) = prefixBeforeColon (u ++ r₂) := by
  unfold prefixBeforeColon
  rw [data_append, data_append, h₁, h₂,
    takeWhile_append_stop (by decide) u.data (r₁.data.tail) (r₂.data.tail)]

/-- Rewrites `FormatPostKey` so that the whole post suffix sits to the right of
the user id, exhibiting `":post_"` immediately after `userID`. -/
theorem FormatPostKey_shape (u : String) (t s : Nat) :
    FormatPostKey u t s = u ++ (":post_" ++ (hexString t ++ ("_" ++ randFragment s))) := by
  simp [FormatPostKey, String.append_assoc]

/-- Two keys that extend the same user id with colon-led suffixes whose
characters right after the colon differ are distinct strings. -/
theorem append_colon_ne (u r₁ r₂ : String) {c₁ c₂ : Char} {t₁ t₂ : List Char}
    (h₁ : r₁.data = ':' :: c₁ :: t₁) (h₂ : r₂.data = ':' :: c₂ :: t₂)
    (hc : c₁ ≠ c₂) : u ++ r₁ ≠ u ++ r₂ := by
  intro he
  have hd := congrArg String.data he
  rw [data_append, data_append, h₁, h₂] at hd
  have htl := List.append_cancel_left hd
  injection htl with _ htl
  injection htl with hhd _
  exact hc hhd

/-- Claim C6: `FormatUserKey(userID)`, `FormatSubListKey(userID)`,
`FormatTribListKey(userID)` and `FormatPostKey(userID, postTime)` all have the
same routing prefix (the substring before the first `:`), for every `userID`
and every `postTime`; since the consistent hash is applied to that prefix
alone, every key belonging to one user routes to the same StorageNode. -/
theorem user_keys_share_routing_shard (userID : String) (postTime srcAddr : Nat) :
    prefixBeforeColon (FormatSubListKey userID) = prefixBeforeColon (FormatUserKey userID) ∧
    prefixBeforeColon (FormatTribListKey userID) = prefixBeforeColon (FormatUserKey userID) ∧
    prefixBeforeColon (FormatPostKey userID postTime srcAddr)
      = prefixBeforeColon (FormatUserKey userID) := by
  refine ⟨?_, ?_, ?_⟩
  · exact prefixBeforeColon_user_eq userID ":sublist" ":usrid" rfl rfl
  · exact prefixBeforeColon_user_eq userID ":triblist" ":usrid" rfl rfl
  · rw [FormatPostKey_shape]
    exact prefixBeforeColon_user_eq userID _ ":usrid" rfl rfl

/-- Counterexample to claim C9: two `FormatPostKey` calls with the same
`userID` and `postTime` made during the same Unix second are NOT guaranteed
identical.  The seed never reaches the rendered fragment — `fmt` prints the
`*rngSource` pointer's allocation address, which differs between the two fresh
allocations — so here two same-second calls whose RNGs land at distinct
addresses produce distinct keys. -/
theorem formatPostKey_same_second_not_deterministic :
    FormatPostKey "roc" 1476000000 51966 ≠ FormatPostKey "roc" 1476000000 51970 := by
  decide

/-- Claim C9 (amended): two `FormatPostKey` calls with the same `userID` and
`postTime` return identical strings exactly when the `%x` renderings of their
freshly allocated RNGs coincide — the fragment is determined by the per-call
`rngSource` allocation address, not by the seed `time.Now().Unix()`, so calls
within the same second generally differ. -/
theorem formatPostKey_eq_iff_fragment_eq (userID : String) (postTime : Nat)
    (addr₁ addr₂ : Nat) :
    FormatPostKey userID postTime addr₁ = FormatPostKey userID postTime addr₂
      ↔ randFragment addr₁ = randFragment addr₂ := by
  constructor
  · intro h
    have hd := congrArg String.data h
    simp only [FormatPostKey, data_append] at hd
    exact String.ext (List.append_cancel_left hd)
  · intro h
    unfold FormatPostKey
    rw [h]

/-- Claim C10: the four key kinds of a user never collide.  `FormatUserKey`
ends in `":usrid"`, `FormatSubListKey` in `":sublist"`, `FormatTribListKey` in
`":triblist"`, `FormatPostKey` places `":post_"` immediately after `userID`,
and the four keys are pairwise distinct strings. -/
theorem formatted_keys_pairwise_distinct (userID : String) (postTime srcAddr : Nat) :
    (List.IsSuffix (":usrid").data (FormatUserKey userID).data ∧
     List.IsSuffix (":sublist").data (FormatSubListKey userID).data ∧
     List.IsSuffix (":triblist").data (FormatTribListKey userID).data ∧
     FormatPostKey userID postTime srcAddr
       = userID ++ (":post_" ++ (hexString postTime ++ ("_" ++ randFragment srcAddr)))) ∧
    FormatUserKey userID ≠ FormatSubListKey userID ∧
    FormatUserKey userID ≠ FormatTribListKey userID ∧
    FormatUserKey userID ≠ FormatPostKey userID postTime srcAddr ∧
    FormatSubListKey userID ≠ FormatTribListKey userID ∧
    FormatSubListKey userID ≠ FormatPostKey userID postTime srcAddr ∧
    FormatTribListKey userID ≠ FormatPostKey userID postTime srcAddr := by
  refine ⟨⟨⟨userID.data, rfl⟩, ⟨userID.data, rfl⟩, ⟨userID.data, rfl⟩,
    FormatPostKey_shape userID postTime srcAddr⟩, ?_, ?_, ?_, ?_, ?_, ?_⟩
  · exact append_colon_ne userID ":usrid" ":sublist" rfl rfl (by decide)
  · exact append_colon_ne userID ":usrid" ":triblist" rfl rfl (by decide)
  · rw [FormatPostKey_shape]
    exact append_colon_ne userID ":usrid" _ rfl rfl (by decide)
  · exact append_colon_ne userID ":sublist" ":triblist" rfl rfl (by decide)
  · rw [FormatPostKey_shape]
    exact append_colon_ne userID ":sublist" _ rfl rfl (by decide)
  · rw [FormatPostKey_shape]
    exact append_colon_ne userID ":triblist" _ rfl rfl (by decide)

/-! ## Storage layer

The StorageServer implementation is not part of the visible sources (only its
RPC contract, the spec, and the checkpoint tester `storagetest.go` are), so
the definitions below are modelled from the specification, §4.1. -/

/-- Storage status codes (`storagerpc`): `OK`, `KeyNotFound`, `ItemNotFound`,
`WrongServer`, `ItemExists`, `NotReady`. -/
inductive SStatus where
  | ok | keyNotFound | itemNotFound | wrongServer | itemExists | notReady
deriving DecidableEq, Repr

/-- Cluster membership entry: `{ HostPort: string, NodeID: uint32 }`. -/
structure Node where
  hostPort : String
  nodeID : Nat
deriving DecidableEq, Repr

/-- Modelled from the spec: the master's bootstrap state.  `numNodes` is the
fixed cluster size; `registered` collects the member list in registration
order, one entry per distinct `NodeID`. -/
structure MasterState where
  numNodes : Nat
  registered : List Node
deriving DecidableEq, Repr

/-- Modelled from the spec: `RegisterServer(Node) -> { Status, Servers }`.
Re-registration by an already-known `NodeID` leaves the set unchanged
(idempotent); otherwise the node is added.  Once `numNodes` distinct `NodeID`s
have registered the reply is `OK` with the full member list, else `NotReady`
with an empty list. -/
def MasterState.registerServer (m : MasterState) (n : Node) :
    (SStatus × List Node) × MasterState :=
  let reg :=
    if m.registered.any (fun x => x.nodeID == n.nodeID) then m.registered
    else m.registered ++ [n]
  if reg.length == m.numNodes then ((SStatus.ok, reg), { m with registered := reg })
  else ((SStatus.notReady, []), { m with registered := reg })

/-- Modelled from the spec: `GetServers() -> { Status, Servers }` returns
`OK, fullList` once ready, `NotReady` and an empty list otherwise. -/
def MasterState.getServers (m : MasterState) : SStatus × List Node :=
  if m.registered.length == m.numNodes then (SStatus.ok, m.registered)
  else (SStatus.notReady, [])

/-- Lease reply: `Lease{Granted, ValidSeconds}`. -/
structure Lease where
  granted : Bool
  validSeconds : Nat
deriving DecidableEq, Repr

/-- Lease lifetime `LeaseSeconds = 5`. -/
def LeaseSeconds : Nat := 5

/-- Server-side grace `LeaseGuardSeconds = 2`. -/
def LeaseGuardSeconds : Nat := 2

/-- Modelled from the spec: the state of one StorageNode, for a single-node
cluster owning the entire ring (the checkpoint storage tests run one node, so
no request is rejected with `WrongServer`).  `scalars` holds the string
values, `lists` the ordered duplicate-free lists — the two namespaces are
disjoint — `revoking` the keys whose leases are currently being revoked, and
`leases` the issued leases as `(key, holderHostPort, expiresAt)`. -/
structure StorageState where
  scalars : List (String × String)
  lists : List (String × List String)
  revoking : List String
  leases : List (String × String × Nat)
deriving DecidableEq, Repr

/-- The empty storage node: no values, no lists, no leases, nothing revoking. -/
def StorageState.empty : StorageState := ⟨[], [], [], []⟩

/-- Modelled from the spec: `Get(Key, WantLease, HostPort)`.  Returns
`KeyNotFound` for an absent key.  For a present key the read succeeds with the
committed value; a lease is granted if and only if `WantLease` is set and the
key is not currently being revoked, in which case `{HostPort, now+LeaseSeconds}`
is recorded in the lease set and `Lease{Granted: true, ValidSeconds: LeaseSeconds}`
is returned. -/
def StorageState.get (s : StorageState) (key hostPort : String)
    (wantLease : Bool) (now : Nat) :
    (SStatus × Option String × Lease) × StorageState :=
  match s.scalars.lookup key with
  | none => ((SStatus.keyNotFound, none, ⟨false, 0⟩), s)
  | some v =>
    if wantLease && !(s.revoking.contains key) then
      ((SStatus.ok, some v, ⟨true, LeaseSeconds⟩),
        { s with leases := (key, hostPort, now + LeaseSeconds) :: s.leases })
    else ((SStatus.ok, some v, ⟨false, 0⟩), s)

/-- Modelled from the spec: `GetList(Key, WantLease, HostPort)`, the list
namespace analogue of `Get`; `ItemNotFound` for an absent key. -/
def StorageState.getList (s : StorageState) (key hostPort : String)
    (wantLease : Bool) (now : Nat) :
    (SStatus × Option (List String) × Lease) × StorageState :=
  match s.lists.lookup key with
  | none => ((SStatus.itemNotFound, none, ⟨false, 0⟩), s)
  | some l =>
    if wantLease && !(s.revoking.contains key) then
      ((SStatus.ok, some l, ⟨true, LeaseSeconds⟩),
        { s with leases := (key, hostPort, now + LeaseSeconds) :: s.leases })
    else ((SStatus.ok, some l, ⟨false, 0⟩), s)

/-- Assoc-list update: replace any binding of `key` by `(key, v)`. -/
def updateAssoc {α : Type} (m : List (String × α)) (key : String) (v : α) :
    List (String × α) :=
  (key, v) :: m.filter (fun p => p.1 != key)

/-- Every mutating op completes revocation for the key before committing
(spec §4.1 write path, steps 1–4): afterwards the lease set for the key is
empty and the revoking flag is clear.  This helper is that post-revocation
cleanup. -/
def StorageState.clearLeases (s : StorageState) (key : String) : StorageState :=
  { s with leases := s.leases.filter (fun l => l.1 != key),
           revoking := s.revoking.filter (fun k => k != key) }

/-- Modelled from the spec: `Put(Key, Value)` — revoke outstanding leases on
the key, then commit the value and reply `OK`. -/
def StorageState.put (s : StorageState) (key value : String) :
    SStatus × StorageState :=
  let s := s.clearLeases key
  (SStatus.ok, { s with scalars := updateAssoc s.scalars key value })

/-- Modelled from the spec: `Delete(Key)` — `KeyNotFound` when the key is
absent; otherwise revoke, remove the binding and reply `OK`. -/
def StorageState.delete (s : StorageState) (key : String) :
    SStatus × StorageState :=
  match s.scalars.lookup key with
  | none => (SStatus.keyNotFound, s)
  | some _ =>
    let s := s.clearLeases key
    (SStatus.ok, { s with scalars := s.scalars.filter (fun p => p.1 != key) })

/-- Modelled from the spec: `AppendToList(Key, Value)` — `ItemExists` (list
unchanged) when `Value` is already present, else revoke and append. -/
def StorageState.appendToList (s : StorageState) (key item : String) :
    SStatus × StorageState :=
  let cur := (s.lists.lookup key).getD []
  if cur.contains item then (SStatus.itemExists, s)
  else
    let s := s.clearLeases key
    (SStatus.ok, { s with lists := updateAssoc s.lists key (cur ++ [item]) })

/-- Modelled from the spec: `RemoveFromList(Key, Value)` — `ItemNotFound`
(list unchanged) when `Value` is absent, else revoke and remove it. -/
def StorageState.removeFromList (s : StorageState) (key item : String) :
    SStatus × StorageState :=
  let cur := (s.lists.lookup key).getD []
  if cur.contains item then
    let s := s.clearLeases key
    (SStatus.ok, { s with lists := updateAssoc s.lists key (cur.erase item) })
  else (SStatus.itemNotFound, s)

/-- Claim C1: while fewer than `numNodes` distinct `NodeID`s have registered,
`GetServers` returns a status other than `OK` (and an empty list); when the
last of the `numNodes` nodes registers, `RegisterServer` — and `GetServers`
afterwards — return `Status=OK` with a non-nil member list of exactly
`numNodes` entries. -/
theorem cluster_bootstrap_membership (m : MasterState) (n : Node)
    (hfresh : ∀ x ∈ m.registered, x.nodeID ≠ n.nodeID)
    (hlast : m.registered.length + 1 = m.numNodes) :
    (m.getServers.1 ≠ SStatus.ok ∧ m.getServers.2 = []) ∧
    (m.registerServer n).1.1 = SStatus.ok ∧
    (m.registerServer n).1.2.length = m.numNodes ∧
    (m.registerServer n).1.2 ≠ [] ∧
    ((m.registerServer n).2.getServers) = (SStatus.ok, (m.registerServer n).1.2) := by
  have hlt : m.registered.length ≠ m.numNodes := by omega
  have hany : m.registered.any (fun x => x.nodeID == n.nodeID) = false := by
    rw [List.any_eq_false]
    intro x hx
    simpa using hfresh x hx
  constructor
  · unfold MasterState.getServers
    simp [hlt]
  · unfold MasterState.registerServer MasterState.getServers
    have hlen : (m.registered ++ [n]).length = m.numNodes := by
      simp [List.length_append]
      omega
    have hne : m.registered ++ [n] ≠ [] := by simp
    simp [hany, hlen, hne]

theorem cluster_bootstrap_membership_witness :
    ((MasterState.getServers ⟨2, [⟨"localhost:9001", 1⟩]⟩).1 ≠ SStatus.ok ∧
      (MasterState.getServers ⟨2, [⟨"localhost:9001", 1⟩]⟩).2 = []) ∧
    (MasterState.registerServer ⟨2, [⟨"localhost:9001", 1⟩]⟩ ⟨"localhost:9002", 2⟩).1.1
      = SStatus.ok ∧
    (MasterState.registerServer ⟨2, [⟨"localhost:9001", 1⟩]⟩ ⟨"localhost:9002", 2⟩).1.2.length
      = 2 ∧
    (MasterState.registerServer ⟨2, [⟨"localhost:9001", 1⟩]⟩ ⟨"localhost:9002", 2⟩).1.2 ≠ [] ∧
    ((MasterState.registerServer ⟨2, [⟨"localhost:9001", 1⟩]⟩ ⟨"localhost:9002", 2⟩).2.getServers)
      = (SStatus.ok,
         (MasterState.registerServer ⟨2, [⟨"localhost:9001", 1⟩]⟩ ⟨"localhost:9002", 2⟩).1.2) :=
  cluster_bootstrap_membership ⟨2, [⟨"localhost:9001", 1⟩]⟩ ⟨"localhost:9002", 2⟩
    (by decide) rfl

/-! ### Association-list helper lemmas -/

theorem lookup_updateAssoc_self {α : Type} (m : List (String × α)) (k : String) (v : α) :
    (updateAssoc m k v).lookup k = some v := by
  simp [updateAssoc, List.lookup]

theorem lookup_filter_self {α : Type} (m : List (String × α)) (k : String) :
    (m.filter (fun p => p.1 != k)).lookup k = none := by
  induction m with
  | nil => rfl
  | cons p t ih =>
      obtain ⟨a, b⟩ := p
      by_cases h : a = k
      · simpa [List.filter, h] using ih
      · have hb : (a != k) = true := by simp [h]
        simp only [List.filter_cons, hb, if_pos]
        rw [List.lookup]
        have hk : (k == a) = false := by simp [Ne.symm h]
        simp [hk, ih]

theorem lookup_filter_ne {α : Type} (m : List (String × α)) (k q : String) (h : ¬ k = q) :
    (m.filter (fun p => p.1 != q)).lookup k = m.lookup k := by
  induction m with
  | nil => rfl
  | cons p t ih =>
      obtain ⟨a, b⟩ := p
      by_cases ha : a = q
      · subst ha
        have hk : (k == a) = false := by simp [h]
        simp [List.filter_cons, List.lookup, hk, ih]
      · have hb : (a != q) = true := by simp [ha]
        simp only [List.filter_cons, hb, if_pos]
        rw [List.lookup, List.lookup]
        cases hk : (k == a) <;> simp [ih]

theorem lookup_updateAssoc_ne {α : Type} (m : List (String × α)) (k q : String) (v : α)
    (h : ¬ k = q) : (updateAssoc m q v).lookup k = m.lookup k := by
  unfold updateAssoc
  rw [List.lookup]
  have hk : (k == q) = false := by simp [h]
  simp only [hk]
  exact lookup_filter_ne m k q h

theorem lookup_mem {α : Type} (m : List (String × α)) (k : String) (v : α)
    (h : m.lookup k = some v) : ∃ a, (a, v) ∈ m := by
  induction m with
  | nil => simp at h
  | cons p t ih =>
      obtain ⟨a, b⟩ := p
      rw [List.lookup] at h
      by_cases hk : k == a
      · simp [hk] at h
        exact ⟨a, by simp [h]⟩
      · simp [hk] at h
        obtain ⟨c, hc⟩ := ih h
        exact ⟨c, by simp [hc]⟩

/-- Claim C2: on a key owned by the node that is present and not under
revocation, `Get` (and `GetList`) with `WantLease=true` succeed and return
`Lease{Granted: true, ValidSeconds: LeaseSeconds}`; a `Get` with
`WantLease=false` never returns a granted lease (any key); in either case the
read succeeds with the committed value. -/
theorem lease_issuance (s : StorageState) (key lkey anyKey hp v : String)
    (l : List String) (now : Nat)
    (hv : s.scalars.lookup key = some v)
    (hrev : key ∉ s.revoking)
    (hl : s.lists.lookup lkey = some l)
    (hlrev : lkey ∉ s.revoking) :
    (s.get key hp true now).1 = (SStatus.ok, some v, ⟨true, LeaseSeconds⟩) ∧
    (s.getList lkey hp true now).1 = (SStatus.ok, some l, ⟨true, LeaseSeconds⟩) ∧
    (s.get key hp false now).1 = (SStatus.ok, some v, ⟨false, 0⟩) ∧
    ((s.get anyKey hp false now).1.2.2).granted = false := by
  have hc : s.revoking.contains key = false := by simpa using hrev
  have hcl : s.revoking.contains lkey = false := by simpa using hlrev
  refine ⟨?_, ?_, ?_, ?_⟩
  · unfold StorageState.get
    rw [hv]
    simp [hrev]
  · unfold StorageState.getList
    rw [hl]
    simp [hlrev]
  · unfold StorageState.get
    rw [hv]
    simp
  · unfold StorageState.get
    cases s.scalars.lookup anyKey <;> simp

theorem lease_issuance_witness :
    ((StorageState.get ⟨[("k:1", "value")], [("kl:1", ["a"])], [], []⟩ "k:1" "localhost:9019" true 0).1
      = (SStatus.ok, some "value", ⟨true, LeaseSeconds⟩)) ∧
    ((StorageState.getList ⟨[("k:1", "value")], [("kl:1", ["a"])], [], []⟩ "kl:1" "localhost:9019" true 0).1
      = (SStatus.ok, some ["a"], ⟨true, LeaseSeconds⟩)) ∧
    ((StorageState.get ⟨[("k:1", "value")], [("kl:1", ["a"])], [], []⟩ "k:1" "localhost:9019" false 0).1
      = (SStatus.ok, some "value", ⟨false, 0⟩)) ∧
    ((StorageState.get ⟨[("k:1", "value")], [("kl:1", ["a"])], [], []⟩ "z:9" "localhost:9019" false 0).1.2.2).granted = false :=
  lease_issuance ⟨[("k:1", "value")], [("kl:1", ["a"])], [], []⟩ "k:1" "kl:1" "z:9"
    "localhost:9019" "value" ["a"] 0 (by decide) (by decide) (by decide) (by decide)

/-! ### Operation traces over one storage node -/

/-- A client request against the storage node, as issued by the checkpoint
tester: the four mutating RPCs plus the two reads. -/
inductive StoreOp where
  | put (key value : String)
  | delete (key : String)
  | appendToList (key item : String)
  | removeFromList (key item : String)
  | get (key hostPort : String) (wantLease : Bool) (now : Nat)
  | getList (key hostPort : String) (wantLease : Bool) (now : Nat)
deriving DecidableEq, Repr

/-- Whether the operation is a `Put` to the given key. -/
def StoreOp.isPutOn (k : String) : StoreOp → Bool
  | .put key _ => key == k
  | _ => false

/-- State transition of the storage node under one request (reply dropped). -/
def applyOp (s : StorageState) : StoreOp → StorageState
  | .put key value => (s.put key value).2
  | .delete key => (s.delete key).2
  | .appendToList key item => (s.appendToList key item).2
  | .removeFromList key item => (s.removeFromList key item).2
  | .get key hostPort wantLease now => (s.get key hostPort wantLease now).2
  | .getList key hostPort wantLease now => (s.getList key hostPort wantLease now).2

/-- The storage node state after serving a sequence of requests, starting
from the empty store. -/
def runOps (ops : List StoreOp) : StorageState :=
  ops.foldl applyOp StorageState.empty

theorem get_eq_some (s : StorageState) (key hp : String) (w : Bool) (now : Nat) (v : String)
    (h : s.scalars.lookup key = some v) :
    s.get key hp w now =
      if w && !(s.revoking.contains key) then
        ((SStatus.ok, some v, ⟨true, LeaseSeconds⟩),
          { s with leases := (key, hp, now + LeaseSeconds) :: s.leases })
      else ((SStatus.ok, some v, ⟨false, 0⟩), s) := by
  unfold StorageState.get
  rw [h]

theorem get_eq_none (s : StorageState) (key hp : String) (w : Bool) (now : Nat)
    (h : s.scalars.lookup key = none) :
    s.get key hp w now = ((SStatus.keyNotFound, none, ⟨false, 0⟩), s) := by
  unfold StorageState.get
  rw [h]

theorem get_scalars_eq (s : StorageState) (key hostPort : String) (w : Bool) (now : Nat) :
    (s.get key hostPort w now).2.scalars = s.scalars := by
  cases h : s.scalars.lookup key with
  | none => rw [get_eq_none s key hostPort w now h]
  | some v => rw [get_eq_some s key hostPort w now v h]; split <;> rfl

theorem getList_eq_some (s : StorageState) (key hp : String) (w : Bool) (now : Nat)
    (l : List String) (h : s.lists.lookup key = some l) :
    s.getList key hp w now =
      if w && !(s.revoking.contains key) then
        ((SStatus.ok, some l, ⟨true, LeaseSeconds⟩),
          { s with leases := (key, hp, now + LeaseSeconds) :: s.leases })
      else ((SStatus.ok, some l, ⟨false, 0⟩), s) := by
  unfold StorageState.getList
  rw [h]

theorem getList_eq_none (s : StorageState) (key hp : String) (w : Bool) (now : Nat)
    (h : s.lists.lookup key = none) :
    s.getList key hp w now = ((SStatus.itemNotFound, none, ⟨false, 0⟩), s) := by
  unfold StorageState.getList
  rw [h]

theorem getList_scalars_eq (s : StorageState) (key hostPort : String) (w : Bool) (now : Nat) :
    (s.getList key hostPort w now).2.scalars = s.scalars := by
  cases h : s.lists.lookup key with
  | none => rw [getList_eq_none s key hostPort w now h]
  | some l => rw [getList_eq_some s key hostPort w now l h]; split <;> rfl

theorem appendToList_scalars_eq (s : StorageState) (key item : String) :
    (s.appendToList key item).2.scalars = s.scalars := by
  simp only [StorageState.appendToList]
  split <;> rfl

theorem removeFromList_scalars_eq (s : StorageState) (key item : String) :
    (s.removeFromList key item).2.scalars = s.scalars := by
  simp only [StorageState.removeFromList]
  split <;> rfl

/-- An operation that is not a `Put` on `k` cannot create a scalar binding
for `k`. -/
theorem applyOp_scalars_none (s : StorageState) (op : StoreOp) (k : String)
    (hop : op.isPutOn k = false) (h : s.scalars.lookup k = none) :
    (applyOp s op).scalars.lookup k = none := by
  cases op with
  | put key value =>
      have hne : ¬ k = key := by
        intro he
        subst he
        simp [StoreOp.isPutOn] at hop
      simp only [applyOp, StorageState.put, StorageState.clearLeases]
      rw [lookup_updateAssoc_ne _ _ _ _ hne]
      exact h
  | delete key =>
      simp only [applyOp, StorageState.delete]
      cases hq : s.scalars.lookup key with
      | none => exact h
      | some v =>
          simp only [StorageState.clearLeases]
          by_cases hk : k = key
          · subst hk
            exact lookup_filter_self _ _
          · rw [lookup_filter_ne _ _ _ hk]
            exact h
  | appendToList key item => rw [applyOp, appendToList_scalars_eq]; exact h
  | removeFromList key item => rw [applyOp, removeFromList_scalars_eq]; exact h
  | get key hostPort wantLease now => rw [applyOp, get_scalars_eq]; exact h
  | getList key hostPort wantLease now => rw [applyOp, getList_scalars_eq]; exact h

theorem foldl_scalars_none (ops : List StoreOp) (k : String) :
    ∀ s : StorageState, (∀ op ∈ ops, op.isPutOn k = false) →
      s.scalars.lookup k = none → (ops.foldl applyOp s).scalars.lookup k = none := by
  induction ops with
  | nil => intro s _ h; exact h
  | cons op t ih =>
      intro s hops h
      rw [List.foldl_cons]
      exact ih _ (fun o ho => hops o (List.mem_cons_of_mem _ ho))
        (applyOp_scalars_none s op k (hops op (List.mem_cons_self _ _)) h)

/-- Claim C3: `Put(k,v)` succeeds and a subsequent `Get(k)` returns `v`;
after `Delete(k)` a `Get(k)` returns `KeyNotFound`; and over any request
trace from the empty store in which `k₃` is never `Put`, `Get(k₃)` returns
`KeyNotFound`. -/
theorem put_get_round_trip (s : StorageState) (ops : List StoreOp)
    (k k₂ k₃ v hp : String) (now : Nat) (w : Bool)
    (hnever : ∀ op ∈ ops, op.isPutOn k₃ = false) :
    (s.put k v).1 = SStatus.ok ∧
    ((s.put k v).2.get k hp w now).1.1 = SStatus.ok ∧
    ((s.put k v).2.get k hp w now).1.2.1 = some v ∧
    ((s.delete k₂).2.get k₂ hp w now).1.1 = SStatus.keyNotFound ∧
    ((runOps ops).get k₃ hp w now).1.1 = SStatus.keyNotFound := by
  have hput : (s.put k v).2.scalars.lookup k = some v := by
    simp only [StorageState.put, StorageState.clearLeases]
    exact lookup_updateAssoc_self _ _ _
  have hdel : (s.delete k₂).2.scalars.lookup k₂ = none := by
    simp only [StorageState.delete]
    cases hq : s.scalars.lookup k₂ with
    | none => exact hq
    | some u =>
        simp only [StorageState.clearLeases]
        exact lookup_filter_self _ _
  have hnv : (runOps ops).scalars.lookup k₃ = none :=
    foldl_scalars_none ops k₃ StorageState.empty hnever rfl
  refine ⟨rfl, ?_, ?_, ?_, ?_⟩
  · rw [get_eq_some _ _ _ _ _ _ hput]
    split <;> rfl
  · rw [get_eq_some _ _ _ _ _ _ hput]
    split <;> rfl
  · rw [get_eq_none _ _ _ _ _ hdel]
  · rw [get_eq_none _ _ _ _ _ hnv]

theorem put_get_round_trip_witness :
    (StorageState.put StorageState.empty "keyputget:1" "value").1 = SStatus.ok ∧
    ((StorageState.put StorageState.empty "keyputget:1" "value").2.get "keyputget:1" "localhost:9019" false 0).1.1 = SStatus.ok ∧
    ((StorageState.put StorageState.empty "keyputget:1" "value").2.get "keyputget:1" "localhost:9019" false 0).1.2.1 = some "value" ∧
    ((StorageState.delete StorageState.empty "revokekey:0").2.get "revokekey:0" "localhost:9019" false 0).1.1 = SStatus.keyNotFound ∧
    ((runOps [StoreOp.put "keyputget:1" "value"]).get "nullkey:1" "localhost:9019" false 0).1.1 = SStatus.keyNotFound :=
  put_get_round_trip StorageState.empty
    [StoreOp.put "keyputget:1" "value"] "keyputget:1" "revokekey:0" "nullkey:1" "value"
    "localhost:9019" 0 false (by decide)

/-! ### List uniqueness invariant -/

/-- Every list stored at the node is duplicate-free. -/
def listsNodup (s : StorageState) : Prop := ∀ p ∈ s.lists, List.Nodup p.2

theorem mem_updateAssoc {α : Type} {p : String × α} {m : List (String × α)}
    {k : String} {v : α} (h : p ∈ updateAssoc m k v) : p = (k, v) ∨ p ∈ m := by
  unfold updateAssoc at h
  rcases List.mem_cons.mp h with h | h
  · exact Or.inl h
  · exact Or.inr (List.mem_of_mem_filter h)

theorem cur_nodup {s : StorageState} (h : listsNodup s) (k : String) :
    ((s.lists.lookup k).getD []).Nodup := by
  cases hq : s.lists.lookup k with
  | none => simp
  | some l =>
      obtain ⟨a, ha⟩ := lookup_mem _ _ _ hq
      simpa using h (a, l) ha

theorem put_lists_eq (s : StorageState) (key value : String) :
    (s.put key value).2.lists = s.lists := rfl

theorem delete_lists_eq (s : StorageState) (key : String) :
    (s.delete key).2.lists = s.lists := by
  unfold StorageState.delete
  cases h : s.scalars.lookup key <;> rfl

theorem get_lists_eq (s : StorageState) (key hostPort : String) (w : Bool) (now : Nat) :
    (s.get key hostPort w now).2.lists = s.lists := by
  cases h : s.scalars.lookup key with
  | none => rw [get_eq_none s key hostPort w now h]
  | some v => rw [get_eq_some s key hostPort w now v h]; split <;> rfl

theorem getList_lists_eq (s : StorageState) (key hostPort : String) (w : Bool) (now : Nat) :
    (s.getList key hostPort w now).2.lists = s.lists := by
  cases h : s.lists.lookup key with
  | none => rw [getList_eq_none s key hostPort w now h]
  | some l => rw [getList_eq_some s key hostPort w now l h]; split <;> rfl

/-- Serving any single request preserves duplicate-freeness of all stored
lists. -/
theorem applyOp_listsNodup (s : StorageState) (op : StoreOp) (h : listsNodup s) :
    listsNodup (applyOp s op) := by
  cases op with
  | put key value =>
      intro p hp
      rw [applyOp, put_lists_eq] at hp
      exact h p hp
  | delete key =>
      intro p hp
      rw [applyOp, delete_lists_eq] at hp
      exact h p hp
  | get key hostPort wantLease now =>
      intro p hp
      rw [applyOp, get_lists_eq] at hp
      exact h p hp
  | getList key hostPort wantLease now =>
      intro p hp
      rw [applyOp, getList_lists_eq] at hp
      exact h p hp
  | appendToList key item =>
      intro p hp
      simp only [applyOp, StorageState.appendToList] at hp
      split at hp
      · exact h p hp
      · rcases mem_updateAssoc hp with he | hm
        · subst he
          rename_i hc
          have hni : item ∉ (s.lists.lookup key).getD [] := by
            simpa using hc
          have hnd := cur_nodup h key
          simpa using List.Nodup.append hnd (List.nodup_singleton item)
            (by simpa [List.disjoint_singleton] using hni)
        · exact h p hm
  | removeFromList key item =>
      intro p hp
      simp only [applyOp, StorageState.removeFromList] at hp
      split at hp
      · rcases mem_updateAssoc hp with he | hm
        · subst he
          simpa using List.Nodup.erase item (cur_nodup h key)
        · exact h p hm
      · exact h p hp

theorem foldl_listsNodup (ops : List StoreOp) :
    ∀ s : StorageState, listsNodup s → listsNodup (ops.foldl applyOp s) := by
  induction ops with
  | nil => intro s h; exact h
  | cons op t ih =>
      intro s h
      rw [List.foldl_cons]
      exact ih _ (applyOp_listsNodup s op h)

/-- Claim C4: after any request sequence from the empty store, every stored
list is duplicate-free; `AppendToList` of an already-present value replies
`ItemExists` and leaves the state (hence the list) unchanged;
`RemoveFromList` of an absent value replies `ItemNotFound` and leaves the
state unchanged. -/
theorem list_no_duplicates (ops : List StoreOp) (s : StorageState) (k i k₂ i₂ : String)
    (hin : ((s.lists.lookup k).getD []).contains i = true)
    (hout : ((s.lists.lookup k₂).getD []).contains i₂ = false) :
    listsNodup (runOps ops) ∧
    s.appendToList k i = (SStatus.itemExists, s) ∧
    s.removeFromList k₂ i₂ = (SStatus.itemNotFound, s) := by
  refine ⟨?_, ?_, ?_⟩
  · exact foldl_listsNodup ops StorageState.empty (by intro p hp; simp [StorageState.empty] at hp)
  · simp only [StorageState.appendToList]
    rw [if_pos hin]
  · simp only [StorageState.removeFromList]
    rw [if_neg (by simpa using hout)]

theorem list_no_duplicates_witness :
    listsNodup (runOps
      [StoreOp.appendToList "keylist:1" "value1",
       StoreOp.appendToList "keylist:1" "value1",
       StoreOp.appendToList "keylist:1" "value2",
       StoreOp.removeFromList "keylist:1" "value1"]) ∧
    StorageState.appendToList ⟨[], [("keylist:1", ["value1"])], [], []⟩ "keylist:1" "value1"
      = (SStatus.itemExists, ⟨[], [("keylist:1", ["value1"])], [], []⟩) ∧
    StorageState.removeFromList ⟨[], [("keylist:1", ["value1"])], [], []⟩ "keylist:1" "value9"
      = (SStatus.itemNotFound, ⟨[], [("keylist:1", ["value1"])], [], []⟩) :=
  list_no_duplicates
    [StoreOp.appendToList "keylist:1" "value1",
     StoreOp.appendToList "keylist:1" "value1",
     StoreOp.appendToList "keylist:1" "value2",
     StoreOp.removeFromList "keylist:1" "value1"]
    ⟨[], [("keylist:1", ["value1"])], [], []⟩ "keylist:1" "value1" "keylist:1" "value9"
    (by decide) (by decide)

/-! ## TribServer layer

The TribServer implementation is likewise absent from the visible sources
(only its RPC interface `tribserver_api.go`, the spec §4.3, and the tester
`tribtest.go` are), so the definitions below are modelled from the
specification. -/

/-- Trib-layer status codes (`tribrpc`): `OK`, `NoSuchUser`, `NoSuchPost`,
`NoSuchTargetUser`, `Exists`. -/
inductive TStatus where
  | ok | noSuchUser | noSuchPost | noSuchTargetUser | userExists
deriving DecidableEq, Repr

/-- A single post: `{ UserID, Posted (timestamp), Contents }`. -/
structure Tribble where
  userID : String
  posted : Int
  contents : String
deriving DecidableEq, Repr

/-- Reverse-chronological comparison: `tribGE a b` holds when `a` was posted
no earlier than `b`, so a `tribGE`-sorted list has non-increasing `Posted`
timestamps. -/
def tribGE (a b : Tribble) : Prop := b.posted ≤ a.posted

instance : DecidableRel tribGE :=
  fun a b => inferInstanceAs (Decidable (b.posted ≤ a.posted))

instance : IsTotal Tribble tribGE := ⟨fun a b => le_total b.posted a.posted⟩

instance : IsTrans Tribble tribGE := ⟨fun _ _ _ h₁ h₂ => le_trans h₂ h₁⟩

/-- Modelled from the spec: assemble a feed — sort the collected tribbles in
descending `Posted` order and keep at most 100. -/
def mkFeed (l : List Tribble) : List Tribble :=
  (List.insertionSort tribGE l).take 100

/-- Modelled from the spec: `GetTribbles(userID)` over a per-user post store
`db` — collect the user's own posts and assemble the feed. -/
def getTribbles (db : List (String × List Tribble)) (u : String) : List Tribble :=
  mkFeed ((db.lookup u).getD [])

/-- Modelled from the spec: `GetTribblesBySubscription(userID)` — union the
posts of all subscribed-to users (the user's subscription list `subs`) and
assemble the feed. -/
def getTribblesBySubscription (db : List (String × List Tribble)) (subs : List String) :
    List Tribble :=
  mkFeed ((subs.map (fun v => (db.lookup v).getD [])).flatten)

theorem mkFeed_length_le (l : List Tribble) : (mkFeed l).length ≤ 100 :=
  List.length_take_le _ _

theorem mkFeed_sorted (l : List Tribble) : List.Sorted tribGE (mkFeed l) :=
  List.Pairwise.sublist (List.take_sublist _ _) (List.sorted_insertionSort tribGE l)

/-- Claim C5: for every post store, user and subscription list, `GetTribbles`
and `GetTribblesBySubscription` return at most 100 tribbles whose `Posted`
timestamps are non-increasing from the first entry to the last (most recent
first). -/
theorem feed_ordering (db : List (String × List Tribble)) (u : String) (subs : List String) :
    (getTribbles db u).length ≤ 100 ∧
    List.Sorted tribGE (getTribbles db u) ∧
    (getTribblesBySubscription db subs).length ≤ 100 ∧
    List.Sorted tribGE (getTribblesBySubscription db subs) :=
  ⟨mkFeed_length_le _, mkFeed_sorted _, mkFeed_length_le _, mkFeed_sorted _⟩

/-- Modelled from the spec: the TribServer-visible state — the set of created
users and, per user, the subscription list stored at `userID:sublist`. -/
structure TribState where
  users : List String
  sublists : List (String × List String)
deriving DecidableEq, Repr

/-- The subscription list of `u` (empty when none stored). -/
def TribState.sub (s : TribState) (u : String) : List String :=
  (s.sublists.lookup u).getD []

/-- Modelled from the spec: `GetFriends(userID)` — `NoSuchUser` for an
unknown user; otherwise the set intersection of `userID`'s subscription list
with the set of users subscribed back to `userID` (mutual subscribers). -/
def TribState.getFriends (s : TribState) (u : String) : TStatus × List String :=
  if s.users.contains u then
    (TStatus.ok, (s.sub u).filter (fun y => (s.sub y).contains u))
  else (TStatus.noSuchUser, [])

/-- Modelled from the spec: `AddSubscription(userID, targetUserID)` —
`NoSuchUser` / `NoSuchTargetUser` for unknown users, `Exists` when the
subscription is already present, else append the target to the
subscription list. -/
def TribState.addSubscription (s : TribState) (a b : String) : TStatus × TribState :=
  if !s.users.contains a then (TStatus.noSuchUser, s)
  else if !s.users.contains b then (TStatus.noSuchTargetUser, s)
  else if (s.sub a).contains b then (TStatus.userExists, s)
  else (TStatus.ok, { s with sublists := updateAssoc s.sublists a (s.sub a ++ [b]) })

/-- Modelled from the spec: `RemoveSubscription(userID, targetUserID)` —
`NoSuchUser` / `NoSuchTargetUser` for unknown users; removing an absent
subscription fails with `NoSuchTargetUser` (the tester
`testRemoveSubscriptionMissingTarget` demands exactly this status), else the
target is removed from the subscription list. -/
def TribState.removeSubscription (s : TribState) (a b : String) : TStatus × TribState :=
  if !s.users.contains a then (TStatus.noSuchUser, s)
  else if !s.users.contains b then (TStatus.noSuchTargetUser, s)
  else if (s.sub a).contains b then
    (TStatus.ok, { s with sublists := updateAssoc s.sublists a ((s.sub a).erase b) })
  else (TStatus.noSuchTargetUser, s)

/-- Claim C7: for existing users `x` and `y`, `y` is among `GetFriends(x)`
exactly when `x` is among `GetFriends(y)` — friendship is the symmetric
intersection of the two subscription lists. -/
theorem mutual_friend_symmetry (s : TribState) (x y : String)
    (hx : x ∈ s.users) (hy : y ∈ s.users) :
    (y ∈ (s.getFriends x).2 ↔ x ∈ (s.getFriends y).2) := by
  have hcx : s.users.contains x = true := by simpa using hx
  have hcy : s.users.contains y = true := by simpa using hy
  unfold TribState.getFriends
  rw [if_pos hcx, if_pos hcy]
  simp [List.mem_filter, and_comm]

theorem mutual_friend_symmetry_witness :
    ("user2new1" ∈ (TribState.getFriends
        ⟨["user1new1", "user2new1"],
         [("user1new1", ["user2new1"]), ("user2new1", ["user1new1"])]⟩ "user1new1").2 ↔
     "user1new1" ∈ (TribState.getFriends
        ⟨["user1new1", "user2new1"],
         [("user1new1", ["user2new1"]), ("user2new1", ["user1new1"])]⟩ "user2new1").2) :=
  mutual_friend_symmetry
    ⟨["user1new1", "user2new1"],
     [("user1new1", ["user2new1"]), ("user2new1", ["user1new1"])]⟩
    "user1new1" "user2new1" (by decide) (by decide)

theorem sub_updateAssoc_self (s : TribState) (a : String) (l : List String) :
    TribState.sub { s with sublists := updateAssoc s.sublists a l } a = l := by
  unfold TribState.sub
  rw [lookup_updateAssoc_self]
  rfl

/-- Claim C8: when both users exist and the subscription from `a` to `b` is
absent, `RemoveSubscription(a, b)` replies `NoSuchTargetUser`; in particular,
after a single `AddSubscription(a, b)` the first `RemoveSubscription(a, b)`
succeeds and the second replies `NoSuchTargetUser`. -/
theorem remove_missing_subscription (s : TribState) (a b : String)
    (ha : a ∈ s.users) (hb : b ∈ s.users) (hab : b ∉ s.sub a) :
    (s.removeSubscription a b).1 = TStatus.noSuchTargetUser ∧
    (s.addSubscription a b).1 = TStatus.ok ∧
    ((s.addSubscription a b).2.removeSubscription a b).1 = TStatus.ok ∧
    (((s.addSubscription a b).2.removeSubscription a b).2.removeSubscription a b).1
      = TStatus.noSuchTargetUser := by
  have hca : s.users.contains a = true := by simpa using ha
  have hcb : s.users.contains b = true := by simpa using hb
  have hnab : (s.sub a).contains b = false := by simpa using hab
  have hadd : s.addSubscription a b
      = (TStatus.ok, { s with sublists := updateAssoc s.sublists a (s.sub a ++ [b]) }) := by
    unfold TribState.addSubscription
    simp [ha, hb, hab]
  have hrm : ∀ t : TribState, t.users = s.users → t.sub a = s.sub a ++ [b] →
      t.removeSubscription a b
        = (TStatus.ok, { t with sublists := updateAssoc t.sublists a ((t.sub a).erase b) }) := by
    intro t hu hsub
    unfold TribState.removeSubscription
    rw [hu, hsub]
    simp [ha, hb]
  have herase : (s.sub a ++ [b]).erase b = s.sub a := by
    rw [List.erase_append_right _ hab]
    simp
  have h1 := sub_updateAssoc_self s a (s.sub a ++ [b])
  have hrm1 := hrm { s with sublists := updateAssoc s.sublists a (s.sub a ++ [b]) } rfl h1
  refine ⟨?_, ?_, ?_, ?_⟩
  · unfold TribState.removeSubscription
    simp [ha, hb, hab]
  · rw [hadd]
  · rw [hadd, hrm1]
  · rw [hadd, hrm1]
    unfold TribState.removeSubscription
    have herase2 : (((List.lookup a s.sublists).getD []) ++ [b]).erase b
        = (List.lookup a s.sublists).getD [] := herase
    have hab2 : b ∉ (List.lookup a s.sublists).getD [] := hab
    simp [TribState.sub, lookup_updateAssoc_self, herase2, ha, hb, hab2]

theorem remove_missing_subscription_witness :
    (TribState.removeSubscription ⟨["user1", "user2"], []⟩ "user1" "user2").1
      = TStatus.noSuchTargetUser ∧
    (TribState.addSubscription ⟨["user1", "user2"], []⟩ "user1" "user2").1 = TStatus.ok ∧
    ((TribState.addSubscription ⟨["user1", "user2"], []⟩ "user1" "user2").2.removeSubscription
      "user1" "user2").1 = TStatus.ok ∧
    (((TribState.addSubscription ⟨["user1", "user2"], []⟩ "user1" "user2").2.removeSubscription
      "user1" "user2").2.removeSubscription "user1" "user2").1 = TStatus.noSuchTargetUser :=
  remove_missing_subscription ⟨["user1", "user2"], []⟩ "user1" "user2"
    (by decide) (by decide) (by decide)
